import Mathlib

/-!
# Verification of the Corporate RM AI Assistant deal-readiness core

Shallow embedding of the decision logic in `api/main.py` (guardrail scanner
`_contains_sensitive` / `_guard_no_sensitive`, rule engine `_assess_deal`,
deterministic AI fallbacks `_fallback_ai_qa` and the `ai_explain` fallback
block, endpoint control flow of `/assess`, `/ai/explain`, `/ai/qa`) together
with the typed data model of `api/schemas.py`.

Strings are modelled as Lean `String`/`List Char`; regular-expression
searching is modelled by explicit backtracking matchers over `List Char`
that realise the three patterns of `_SENSITIVE_PATTERNS` including Python's
`\b` word-boundary semantics.  Python's `\d` and `\w` (and hence `\b`) are
Unicode-aware for `str` patterns; this embedding renders them by their
ASCII restrictions, on which the two agree exactly, so scanner properties
are stated for ASCII input text (every character below code point 128) and
non-ASCII inputs are outside the model.  Python floats are modelled as
rationals.  The ambient call date used for `created_at = date.today()` is
modelled as an explicit `today : Nat` parameter.  `HTTPException(400)`
raised by `_guard_no_sensitive` is modelled as `Except.error`, and an
uncaught Python exception in a handler (surfaced by the framework as a 500)
as an explicit `serverError` outcome.
-/

/-! ## Character classes (ASCII fragments of Python `\w`, `\d`, `str.strip`) -/

/-- The ASCII restriction of Python's regex word character `\w`: letter,
digit or underscore.  Python's `\w` (and therefore `\b`, which compares
`\w`-ness on both sides of a position) also matches non-ASCII Unicode word
characters such as `é`, which this predicate does not, so boundary
decisions are faithful to the program only on ASCII text. -/
def isWordChar (c : Char) : Bool :=
  c.isAlpha || c.isDigit || c == '_'

/-- Character class `[A-Za-z0-9._%+-]` of the email pattern's local part. -/
def isLocalChar (c : Char) : Bool :=
  c.isAlpha || c.isDigit || c == '.' || c == '_' || c == '%' || c == '+' || c == '-'

/-- Character class `[A-Za-z0-9.-]` of the email pattern's domain part. -/
def isDomainChar (c : Char) : Bool :=
  c.isAlpha || c.isDigit || c == '.' || c == '-'

/-- Python `str.strip()` on the character list of a string. -/
def pyStrip (l : List Char) : List Char :=
  ((l.dropWhile Char.isWhitespace).reverse.dropWhile Char.isWhitespace).reverse

/-! ## Substring occurrence (Python `in` on strings), used by `_assess_deal`'s
keyword scan over constraint texts. -/

/-- `leadSeg p l`: `p` occurs at the very beginning of `l`. -/
def leadSeg : List Char → List Char → Bool
  | [], _ => true
  | _ :: _, [] => false
  | p :: ps, c :: cs => p == c && leadSeg ps cs

/-- `hasSub p l`: `p` occurs as a contiguous run somewhere in `l`
(Python `p in l` for strings). -/
def hasSub (p : List Char) : List Char → Bool
  | [] => leadSeg p []
  | c :: cs => leadSeg p (c :: cs) || hasSub p cs

/-- ASCII lower-casing of a character list (Python `str.lower`). -/
def lowerL (l : List Char) : List Char := l.map Char.toLower

/-! ## The three sensitive patterns of `_SENSITIVE_PATTERNS`

Each matcher takes the remaining input at a candidate start position and
decides whether the pattern (minus its leading `\b`, which the searcher
checks) can match a segment starting there; trailing `\b` is checked via
the head of the remaining input.  The recursive `…Tail` functions realise
the full nondeterminism of the regex quantifiers, so matcher success is
exactly regex-match existence. -/

/-- Tail of `\b[A-Z]{2}\d{2}[A-Z0-9]{11,30}\b` after the four fixed-class
characters: consume `[A-Z0-9]` characters (count in `cnt`), allowing a stop
at any count in `[11,30]` that is followed by a word boundary. -/
def ibanTail (cnt : Nat) : List Char → Bool
  | [] => decide (11 ≤ cnt) && decide (cnt ≤ 30)
  | c :: cs =>
    (decide (11 ≤ cnt) && decide (cnt ≤ 30) && !isWordChar c) ||
    (decide (cnt < 30) && (c.isUpper || c.isDigit) && ibanTail (cnt + 1) cs)

/-- The IBAN-ish pattern `\b[A-Z]{2}\d{2}[A-Z0-9]{11,30}\b` at this position. -/
def matchIban : List Char → Bool
  | a :: b :: c :: d :: rest =>
    a.isUpper && b.isUpper && c.isDigit && d.isDigit && ibanTail 0 rest
  | _ => false

/-- Matcher for `\b\d{12,19}\b`: consume digits, allowing a stop at any
count in `[12,19]` that is followed by a word boundary. -/
def digitTail (cnt : Nat) : List Char → Bool
  | [] => decide (12 ≤ cnt) && decide (cnt ≤ 19)
  | c :: cs =>
    (decide (12 ≤ cnt) && decide (cnt ≤ 19) && !isWordChar c) ||
    (decide (cnt < 19) && c.isDigit && digitTail (cnt + 1) cs)

/-- The long-digit-run pattern `\b\d{12,19}\b` at this position. -/
def matchDigits (l : List Char) : Bool := digitTail 0 l

/-- Tail `[A-Za-z]{2,}\b` of the email pattern. -/
def tldTail (cnt : Nat) : List Char → Bool
  | [] => decide (2 ≤ cnt)
  | c :: cs => (decide (2 ≤ cnt) && !isWordChar c) || (c.isAlpha && tldTail (cnt + 1) cs)

/-- Tail `[A-Za-z0-9.-]+\.[A-Za-z]{2,}\b` of the email pattern. -/
def domTail (cnt : Nat) : List Char → Bool
  | [] => false
  | c :: cs =>
    (decide (1 ≤ cnt) && c == '.' && tldTail 0 cs) ||
    (isDomainChar c && domTail (cnt + 1) cs)

/-- Tail `[A-Za-z0-9._%+-]+@[A-Za-z0-9.-]+\.[A-Za-z]{2,}\b` of the email pattern. -/
def locTail (cnt : Nat) : List Char → Bool
  | [] => false
  | c :: cs =>
    (decide (1 ≤ cnt) && c == '@' && domTail 0 cs) ||
    (isLocalChar c && locTail (cnt + 1) cs)

/-- The email pattern `\b[A-Za-z0-9._%+-]+@[A-Za-z0-9.-]+\.[A-Za-z]{2,}\b`
at this position. -/
def matchEmail (l : List Char) : Bool := locTail 0 l

/-- `re.search` for one pattern: try the matcher at every position whose
preceding context yields a `\b` word boundary (`prevWord` records whether
the previous character was a word character; `false` at the start of the
text, matching Python's treatment of the string edge as non-word). -/
def searchPat (m : List Char → Bool) (prevWord : Bool) : List Char → Bool
  | [] => false
  | c :: cs => ((prevWord != isWordChar c) && m (c :: cs)) || searchPat m (isWordChar c) cs

/-- `_contains_sensitive(text)` from `api/main.py`: strip the text; empty or
whitespace-only text never matches; otherwise search the three patterns.
Faithful to the program on ASCII text; Python's Unicode-aware `\d`/`\w`/`\b`
make the program diverge from this model on non-ASCII inputs (in both
directions), so theorems about the scanner are scoped to ASCII. -/
def contains_sensitive (s : String) : Bool :=
  let t := pyStrip s.data
  if t.isEmpty then false
  else searchPat matchIban false t || searchPat matchDigits false t ||
    searchPat matchEmail false t

/-- Search restricted to the email pattern alone; used to express
"the text contains an email address" executably (same ASCII scope as
`contains_sensitive`). -/
def contains_email (s : String) : Bool :=
  let t := pyStrip s.data
  if t.isEmpty then false else searchPat matchEmail false t

/-! ## Data model (`api/schemas.py`) -/

/-- `StrategicSector` literal type. -/
inductive Sector
  | Manufacturing | AdvancedTechnology | Healthcare | FoodSecurity | Renewables | Other
deriving DecidableEq

/-- The literal strings of `StrategicSector`. -/
def sectorStr : Sector → String
  | .Manufacturing => "Manufacturing"
  | .AdvancedTechnology => "Advanced Technology"
  | .Healthcare => "Healthcare"
  | .FoodSecurity => "Food Security"
  | .Renewables => "Renewables"
  | .Other => "Other"

/-- `Trend3Y` literal type. -/
inductive Trend3Y
  | Improving | Stable | Declining
deriving DecidableEq

/-- `margin_trend_3y` literal type (`"Improving" | "Stable" | "Under Pressure"`). -/
inductive MarginTrend
  | Improving | Stable | UnderPressure
deriving DecidableEq

/-- `SignalLeverage` literal type. -/
inductive SignalLeverage
  | Low | Moderate | Elevated
deriving DecidableEq

/-- `Signal3` literal type (`"Strong" | "Adequate" | "Weak"`). -/
inductive Signal3
  | Strong | Adequate | Weak
deriving DecidableEq

/-- `SignalVolatility` literal type. -/
inductive SignalVolatility
  | Low | Moderate | High
deriving DecidableEq

/-- `SignalInvestment` literal type. -/
inductive SignalInvestment
  | High | Moderate | Low
deriving DecidableEq

/-- `DealReadinessStatus` literal type. -/
inductive Status
  | Strong | Conditional | Weak
deriving DecidableEq

/-- The literal strings of `DealReadinessStatus`. -/
def statusStr : Status → String
  | .Strong => "Strong"
  | .Conditional => "Conditional"
  | .Weak => "Weak"

/-- `RatingAnchorIn`; dates are modelled as abstract `Nat` ordinals. -/
structure RatingAnchor where
  system : String
  grade : String
  outlook : Option String
  as_of : Option Nat
deriving DecidableEq

/-- `EligibilityIn`; the float score is modelled as a rational. -/
structure Eligibility where
  score : ℚ
  drivers : List String
  breakdown : List (String × ℚ)
deriving DecidableEq

/-- `FinancialSignalsIn`. -/
structure FinancialSignals where
  revenue_trend_3y : Trend3Y
  margin_trend_3y : MarginTrend
  leverage_position : SignalLeverage
  cashflow_quality : Signal3
  earnings_volatility : SignalVolatility
  capex_growth_investment : SignalInvestment
  financial_transparency : Signal3
deriving DecidableEq

/-- `DealInputRequest`. -/
structure DealInput where
  client_name : String
  group_name : Option String
  sector : Sector
  rating_anchor : RatingAnchor
  eligibility : Eligibility
  financial_signals : FinancialSignals
  notes : Option String
deriving DecidableEq

/-- `DealReadinessOut`. -/
structure DealReadiness where
  status : Status
  strengths : List String
  constraints : List String
deriving DecidableEq

/-- `DealSummaryResponse`. -/
structure DealSummary where
  client_name : String
  group_name : Option String
  sector : Sector
  rating_anchor : RatingAnchor
  eligibility : Eligibility
  financial_signals : FinancialSignals
  deal_readiness : DealReadiness
  mandate_fit_summary : String
  rm_actions : List String
  talking_points : List String
  created_at : Option Nat
  notes : Option String
deriving DecidableEq

/-- Validation performed upstream by `DealInputRequest` (pydantic):
`eligibility.score` in `[0, 6]` and `client_name` non-blank. -/
def ValidInput (p : DealInput) : Prop :=
  0 ≤ p.eligibility.score ∧ p.eligibility.score ≤ 6 ∧ pyStrip p.client_name.data ≠ []

/-! ## Number formatting: Python `f"{s:.1f}"` on the score

Only the fact that this is a deterministic function of the score matters to
the claims; it is modelled as rounding the rational to one decimal place
with round-half-to-even, the rounding float formatting uses. -/

/-- Digit character for `d < 10`. -/
def digitChar (d : Nat) : Char := Char.ofNat (48 + d)

/-- Decimal digits of a natural number, most significant first
(fuel-structured so that it evaluates by kernel reduction). -/
def natDigitsAux : Nat → Nat → List Char
  | 0, _ => []
  | fuel + 1, n => if n < 10 then [digitChar n] else natDigitsAux fuel (n / 10) ++ [digitChar (n % 10)]

/-- Decimal digits of a natural number. -/
def natDigits (n : Nat) : List Char := natDigitsAux (n + 1) n

/-- `10 * q` rounded to the nearest integer, ties to even, computed on the
numerator and denominator with integer arithmetic only. -/
def rndTenths (q : ℚ) : ℤ :=
  let n : ℤ := 10 * q.num
  let d : ℤ := q.den
  let f : ℤ := n.fdiv d
  let r2 : ℤ := 2 * (n - f * d)
  if r2 < d then f else if d < r2 then f + 1 else if f % 2 = 0 then f else f + 1

/-- Python `f"{s:.1f}"` for the (validated, hence non-negative) score. -/
def fmtScore (q : ℚ) : String :=
  let m : Nat := (rndTenths q).toNat
  ⟨natDigits (m / 10) ++ '.' :: [digitChar (m % 10)]⟩

/-! ## The rule engine `_assess_deal` (api/main.py lines 92-212)

The sequential appends of the Python code are modelled as concatenations of
the per-section contributions, in the source's order. -/

/-- `payload.rating_anchor.grade.strip()` truthiness. -/
def grade_ok (p : DealInput) : Bool := !(pyStrip p.rating_anchor.grade.data).isEmpty

/-- The `strengths` list built by `_assess_deal`. -/
def assess_strengths (p : DealInput) : List String :=
  (if grade_ok p then ["Rating anchor available from " ++ p.rating_anchor.system ++ "."] else [])
  ++ (if 4.5 ≤ p.eligibility.score then
        ["Strong strategic eligibility score (" ++ fmtScore p.eligibility.score ++ "/6)."]
      else if 3 ≤ p.eligibility.score then
        ["Moderate strategic eligibility score (" ++ fmtScore p.eligibility.score ++ "/6)."]
      else [])
  ++ (if !p.eligibility.drivers.isEmpty then ["Eligibility drivers provided."] else [])
  ++ (if p.financial_signals.revenue_trend_3y = Trend3Y.Improving then
        ["Revenue trend improving over 3 years."] else [])
  ++ (if p.financial_signals.margin_trend_3y = MarginTrend.Improving then
        ["Margins improving over 3 years."] else [])
  ++ (if p.financial_signals.leverage_position = SignalLeverage.Low then
        ["Low leverage position."] else [])
  ++ (if p.financial_signals.cashflow_quality = Signal3.Strong then
        ["Strong cash flow quality."] else [])

/-- The `constraints` list built by `_assess_deal`. -/
def assess_constraints (p : DealInput) : List String :=
  (if grade_ok p then [] else ["No rating grade provided; cannot anchor risk positioning."])
  ++ (if 4.5 ≤ p.eligibility.score then []
      else if 3 ≤ p.eligibility.score then
        ["Eligibility is not strongly differentiated vs. strategic mandate."]
      else ["Weak strategic eligibility score (" ++ fmtScore p.eligibility.score ++ "/6)."])
  ++ (if p.financial_signals.revenue_trend_3y = Trend3Y.Declining then
        ["Revenue trend declining over 3 years."] else [])
  ++ (if p.financial_signals.margin_trend_3y = MarginTrend.UnderPressure then
        ["Margins under pressure; risk to debt service capacity."] else [])
  ++ (if p.financial_signals.leverage_position = SignalLeverage.Elevated then
        ["Elevated leverage position; reduced headroom."] else [])
  ++ (if p.financial_signals.cashflow_quality = Signal3.Weak then
        ["Weak cash flow quality; potential working-capital stress."] else [])
  ++ (if p.financial_signals.earnings_volatility = SignalVolatility.High then
        ["High earnings volatility; needs stronger controls/monitoring."] else [])
  ++ (if p.financial_signals.capex_growth_investment = SignalInvestment.High then
        ["High capex/growth investment increases execution risk."] else [])
  ++ (if p.financial_signals.financial_transparency = Signal3.Weak then
        ["Weak financial transparency limits credit comfort."] else [])

/-- The `rm_actions` list built by `_assess_deal`. -/
def assess_rm_actions (p : DealInput) : List String :=
  (if grade_ok p then [] else ["Obtain/confirm latest internal/external rating grade and date."])
  ++ (if 4.5 ≤ p.eligibility.score then []
      else if 3 ≤ p.eligibility.score then
        ["Strengthen eligibility case (job creation, exports, ICV, localisation, etc.)."]
      else ["Rework mandate alignment narrative and quantify eligibility drivers."])
  ++ (if p.financial_signals.revenue_trend_3y = Trend3Y.Declining then
        ["Validate orderbook, customer concentration, and recovery plan."] else [])
  ++ (if p.financial_signals.margin_trend_3y = MarginTrend.UnderPressure then
        ["Assess pricing power, input cost pass-through, and covenant buffers."] else [])
  ++ (if p.financial_signals.leverage_position = SignalLeverage.Elevated then
        ["Consider structure support: amortisation, covenants, collateral, DSRA/DSCR."] else [])
  ++ (if p.financial_signals.cashflow_quality = Signal3.Weak then
        ["Request WC cycle analysis, ageing, and evidence of collections discipline."] else [])
  ++ (if p.financial_signals.earnings_volatility = SignalVolatility.High then
        ["Add monitoring triggers and tighten covenants; test downside scenarios."] else [])
  ++ (if p.financial_signals.capex_growth_investment = SignalInvestment.High then
        ["Validate capex plan, milestones, contingencies, and sponsor support."] else [])
  ++ (if p.financial_signals.financial_transparency = Signal3.Weak then
        ["Obtain audited financials, detailed management accounts, and bank statements."] else [])

/-- The keyword list of `_assess_deal`'s major-constraint scan (line 173). -/
def majorKeywords : List (List Char) :=
  ["declining".data, "under pressure".data, "elevated".data, "weak".data, "high".data]

/-- `any(k in c.lower() for k in [...])` for one constraint text. -/
def isMajor (c : String) : Bool := majorKeywords.any fun k => hasSub k (lowerL c.data)

/-- `major_count` of `_assess_deal` (lines 171-174). -/
def assess_major_count (p : DealInput) : Nat := (assess_constraints p).countP isMajor

/-- Lines 176-181: `>= 3 → Weak`, `>= 1 → Conditional`, else `Strong`. -/
def classifyStatus (n : Nat) : Status :=
  if 3 ≤ n then .Weak else if 1 ≤ n then .Conditional else .Strong

/-- The `status` computed by `_assess_deal`. -/
def assess_status (p : DealInput) : Status := classifyStatus (assess_major_count p)

/-- Talking point appended for status `Strong` (line 185). -/
def tpStrong : String := "Mandate fit is clear; focus discussion on facility sizing and structure."

/-- Talking point appended for status `Conditional` (line 187). -/
def tpConditional : String := "Proceed subject to resolving key constraints and tightening structure."

/-- Talking point appended for status `Weak` (line 189). -/
def tpWeak : String := "Defer credit appetite until constraints are addressed and visibility improves."

/-- The `talking_points` list built by `_assess_deal` (lines 184-189). -/
def assess_talking_points (p : DealInput) : List String :=
  if assess_status p = .Strong then [tpStrong]
  else if assess_status p = .Conditional then [tpConditional]
  else [tpWeak]

/-- The `mandate_fit_summary` template (lines 192-197). -/
def mandate_fit (p : DealInput) : String :=
  p.client_name ++ " sits in the \x27" ++ sectorStr p.sector ++
    "\x27 sector with eligibility score " ++ fmtScore p.eligibility.score ++
    "/6. Deal readiness is assessed as " ++ statusStr (assess_status p) ++
    " based on rating anchor, eligibility strength, and RM-level financial signals " ++
    "(revenue/margin/leverage/cash flow/volatility/transparency)."

/-- The `DealSummaryResponse` returned by `_assess_deal` (lines 199-212);
`today` models the ambient `date.today()`. -/
def assess_summary (today : Nat) (p : DealInput) : DealSummary where
  client_name := p.client_name
  group_name := p.group_name
  sector := p.sector
  rating_anchor := p.rating_anchor
  eligibility := p.eligibility
  financial_signals := p.financial_signals
  deal_readiness :=
    { status := assess_status p
      strengths := assess_strengths p
      constraints := assess_constraints p }
  mandate_fit_summary := mandate_fit p
  rm_actions := assess_rm_actions p
  talking_points := assess_talking_points p
  created_at := some today
  notes := p.notes

/-- `_assess_deal` itself: the guardrail over `client_name`, `group_name or ""`
and `notes or ""` (line 94), then the deterministic summary; the 400
`HTTPException` is `Except.error ()`. -/
def assess_deal (today : Nat) (p : DealInput) : Except Unit DealSummary :=
  if contains_sensitive p.client_name || contains_sensitive (p.group_name.getD "") ||
      contains_sensitive (p.notes.getD "") then
    .error ()
  else .ok (assess_summary today p)

/-! ## AI helpers and endpoints (`api/main.py` lines 235-388) -/

/-- `_ai_disclaimer()`. -/
def ai_disclaimer : String :=
  "Do not enter confidential/internal customer data into external AI. " ++
  "Use anonymised inputs only. Outputs are decision-support and must be reviewed " ++
  "by a qualified banker."

/-- `AIExplainResponse`. -/
structure AIExplainResponse where
  executive_summary : String
  key_risks_explained : List String
  rm_talking_points : List String
  disclaimer : String
deriving DecidableEq

/-- `_fallback_ai_qa(question, deal)` (lines 251-268).  The `question`
parameter is kept because the source takes it, but the source never reads
it. -/
def fallback_ai_qa (question : String) (deal : Option DealSummary) : String :=
  match deal with
  | none => "Provide a deal assessment first (POST /assess), then ask a question grounded in the summary."
  | some d =>
    if d.deal_readiness.status = .Strong then
      "Proceed to structure discussion: facility sizing, tenor, security, covenants, and pricing calibration."
    else if !d.deal_readiness.constraints.isEmpty then
      "Prioritise the top constraints first:\n- " ++
        String.intercalate "\n- " (d.deal_readiness.constraints.take 5) ++
        "\n\nNext RM actions:\n- " ++
        String.intercalate "\n- "
          (if (d.rm_actions.take 6).isEmpty then
            ["Request missing information and tighten structure accordingly."]
          else d.rm_actions.take 6)
    else "Focus on clarifying rating anchor, eligibility drivers, and the weakest financial signals."

/-- The `deal_summary` payload as the SHIPPED schemas bind it.  The last
(binding) definitions in `api/schemas.py` type it as a raw `dict`
(`AIExplainRequest.deal_summary : dict`, line 119-120, and the second
`AIQARequest.deal_summary : dict | None`, lines 130-132, shadowing the
earlier typed one), so pydantic hands the handlers a plain Python dict.
The handlers only ever access *attributes* on it (`deal.notes`,
`deal.model_dump()`), which fails with `AttributeError` for every dict
regardless of its keys, so the only property of the payload the program can
observe before crashing is its Python truthiness (the empty dict and `None`
are falsy).  The payload is therefore modelled by that one bit. -/
structure RawDealSummary where
  nonempty : Bool
deriving DecidableEq

/-- Python truthiness of `payload.deal_summary : dict | None`. -/
def rawTruthy : Option RawDealSummary → Bool
  | none => false
  | some d => d.nonempty

/-- Observable outcome of the `/ai/explain` handler: a guardrail rejection
(400), the deterministic fallback response, a call into the external
text-generation adapter, or an uncaught exception surfaced by the framework
as a 500 server error. -/
inductive ExplainOutcome
  | rejected
  | fallback (r : AIExplainResponse)
  | adapterCall
  | serverError
deriving DecidableEq

/-- The deterministic fallback response-construction block of `ai_explain`
(lines 288-295; repeated verbatim at lines 316-323 and 338-345), over the
typed summary its `d.get`/`dr.get` accesses expect.  In the shipped program
this block is dead code (see `ai_explain` below), but it is the code the
claims about the fallback response describe. -/
def ai_explain_fallback (d : DealSummary) : AIExplainResponse where
  executive_summary := d.mandate_fit_summary
  key_risks_explained := d.deal_readiness.constraints.take 6
  rm_talking_points := d.talking_points.take 6
  disclaimer := ai_disclaimer

/-- Control flow of the shipped `ai_explain` handler (lines 281-303): its
very first statement, `if payload.deal_summary.notes:` (line 283), performs
an attribute access on the dict-typed `deal_summary` and raises
`AttributeError` on every request — before the notes guard, the fallback
branch, and the adapter call — so every request ends in a 500 server error,
for any client configuration and any payload. -/
def ai_explain (configured : Bool) (deal_summary : RawDealSummary) : ExplainOutcome :=
  ExplainOutcome.serverError

/-- Observable outcome of the `/ai/qa` handler. -/
inductive QaOutcome
  | rejected
  | answered (a : String)
  | adapterCall
  | serverError
deriving DecidableEq

/-- Control flow of the shipped `ai_qa` handler (lines 348-388) over the
dict-typed `deal_summary`: the question is guarded first (line 350, a real
`str`, so this works).  With no client configured, the handler calls
`_fallback_ai_qa(question, deal_summary)`: a falsy summary (`None` or `{}`)
takes the `if not deal` branch and returns the fixed instruction, while a
truthy dict crashes at `deal.model_dump()` — a 500.  With a client
configured, a truthy dict crashes at `deal.notes` (line 360) before the
notes guard — a 500 — and a falsy one skips the guard and reaches the
adapter with `DEAL SUMMARY: (none)`. -/
def ai_qa (configured : Bool) (question : String) (deal_summary : Option RawDealSummary) :
    QaOutcome :=
  if contains_sensitive question then .rejected
  else if !configured then
    if rawTruthy deal_summary then .serverError
    else .answered (fallback_ai_qa question none)
  else
    if rawTruthy deal_summary then .serverError
    else .adapterCall

/-! ## Specification-side predicates

These follow the spec's words, to be compared with the code-derived
definitions above. -/

/-- Whether the character just before a given position is a word character:
`false` for the edge of the text, else `isWordChar` of the last character. -/
def lastWord : List Char → Bool
  | [] => false
  | [c] => isWordChar c
  | _ :: c :: cs => lastWord (c :: cs)

/-- Whether the character just after a given position is a word character:
`false` for the edge of the text. -/
def headWord : List Char → Bool
  | [] => false
  | c :: _ => isWordChar c

/-- Word-character status of the position before a candidate occurrence:
`prev` at the very start of the text, else the last character of the
preceding segment. -/
def prevAt (prev : Bool) : List Char → Bool
  | [] => prev
  | c :: cs => lastWord (c :: cs)

/-- The text contains a token satisfying `P`: an occurrence of `P` delimited
on both sides by a word boundary (a change of word-character status, with
the text's edges counting as non-word). -/
def HasTokL (P : List Char → Prop) (l : List Char) : Prop :=
  ∃ pre tok post, l = pre ++ tok ++ post ∧ P tok ∧
    prevAt false pre ≠ headWord tok ∧ lastWord tok ≠ headWord post

/-- Spec: "IBAN-like: two uppercase letters, two digits, 11-30 further
alphanumerics". -/
def IbanTok (tok : List Char) : Prop :=
  ∃ a b c, tok = a ++ b ++ c ∧
    a.length = 2 ∧ (∀ x ∈ a, x.isUpper = true) ∧
    b.length = 2 ∧ (∀ x ∈ b, x.isDigit = true) ∧
    11 ≤ c.length ∧ c.length ≤ 30 ∧ ∀ x ∈ c, (x.isUpper || x.isDigit) = true

/-- Spec: "long digit runs of length 12-19". -/
def DigitTok (tok : List Char) : Prop :=
  12 ≤ tok.length ∧ tok.length ≤ 19 ∧ ∀ x ∈ tok, x.isDigit = true

/-- Spec: "email address shape" — a local part, `@`, a domain part, a dot
and a 2+-letter suffix, with the character classes of the source pattern. -/
def EmailTok (tok : List Char) : Prop :=
  ∃ lp dp tp, tok = lp ++ '@' :: (dp ++ '.' :: tp) ∧
    lp ≠ [] ∧ (∀ x ∈ lp, isLocalChar x = true) ∧
    dp ≠ [] ∧ (∀ x ∈ dp, isDomainChar x = true) ∧
    2 ≤ tp.length ∧ ∀ x ∈ tp, x.isAlpha = true

/-- Spec-side characterisation of the guardrail scanner: the text contains
a word-boundary-delimited IBAN-like token, 12-19 digit run, or email-shaped
token. -/
def SensitiveSpec (s : String) : Prop :=
  HasTokL IbanTok s.data ∨ HasTokL DigitTok s.data ∨ HasTokL EmailTok s.data

/-- Containment of a token with NO boundary requirement: the claim's words
read literally ("the input text contains … a digit run of length 12-19"),
without the `\b` conditions the source patterns impose. -/
def HasPlainTok (P : List Char → Prop) (l : List Char) : Prop :=
  ∃ pre tok post, l = pre ++ tok ++ post ∧ P tok

/-- Spec-side major-constraint count (claim C1): one per unfavorable
categorical financial signal, plus one for a sub-3.0 eligibility score; the
soft differentiation constraint and the missing-rating-grade constraint do
not count. -/
def specMajorCount (p : DealInput) : Nat :=
  (if p.eligibility.score < 3 then 1 else 0)
  + (if p.financial_signals.revenue_trend_3y = Trend3Y.Declining then 1 else 0)
  + (if p.financial_signals.margin_trend_3y = MarginTrend.UnderPressure then 1 else 0)
  + (if p.financial_signals.leverage_position = SignalLeverage.Elevated then 1 else 0)
  + (if p.financial_signals.cashflow_quality = Signal3.Weak then 1 else 0)
  + (if p.financial_signals.earnings_volatility = SignalVolatility.High then 1 else 0)
  + (if p.financial_signals.capex_growth_investment = SignalInvestment.High then 1 else 0)
  + (if p.financial_signals.financial_transparency = Signal3.Weak then 1 else 0)

/-- Rank of a status along the order Strong (best) > Conditional > Weak. -/
def statusRank : Status → Nat
  | .Strong => 0
  | .Conditional => 1
  | .Weak => 2

/-- Replace only the eligibility score, holding every other field fixed. -/
def setScore (p : DealInput) (x : ℚ) : DealInput :=
  { p with eligibility := { p.eligibility with score := x } }

/-- Erase the `created_at` stamp of a summary. -/
def stripCreated (s : DealSummary) : DealSummary := { s with created_at := none }

/-! ## Concrete fixtures used by the claims' literal cases -/

/-- Spec literal case: exactly one unfavorable signal
(`leverage_position="Elevated"`, all else favorable), score 5.0. -/
def exampleOneElevated : DealInput where
  client_name := "Acme Manufacturing"
  group_name := none
  sector := .Manufacturing
  rating_anchor := { system := "Credit Lens", grade := "A", outlook := none, as_of := none }
  eligibility := { score := 5, drivers := ["Exports"], breakdown := [] }
  financial_signals :=
    { revenue_trend_3y := .Improving
      margin_trend_3y := .Improving
      leverage_position := .Elevated
      cashflow_quality := .Strong
      earnings_volatility := .Low
      capex_growth_investment := .Low
      financial_transparency := .Strong }
  notes := none

/-- Spec literal case: all seven signals favorable, grade "A", score 5.0. -/
def exampleAllFavorable : DealInput where
  client_name := "Acme Manufacturing"
  group_name := none
  sector := .Manufacturing
  rating_anchor := { system := "Credit Lens", grade := "A", outlook := none, as_of := none }
  eligibility := { score := 5, drivers := ["Exports"], breakdown := [] }
  financial_signals :=
    { revenue_trend_3y := .Improving
      margin_trend_3y := .Improving
      leverage_position := .Low
      cashflow_quality := .Strong
      earnings_volatility := .Low
      capex_growth_investment := .Low
      financial_transparency := .Strong }
  notes := none

/-- A summary with `Strong` status and a (non-major) constraint, as the
engine produces for a missing rating grade with all else favorable. -/
def qaStrongSummary : DealSummary where
  client_name := "Acme Manufacturing"
  group_name := none
  sector := .Manufacturing
  rating_anchor := { system := "Credit Lens", grade := "", outlook := none, as_of := none }
  eligibility := { score := 5, drivers := [], breakdown := [] }
  financial_signals :=
    { revenue_trend_3y := .Improving
      margin_trend_3y := .Improving
      leverage_position := .Low
      cashflow_quality := .Strong
      earnings_volatility := .Low
      capex_growth_investment := .Low
      financial_transparency := .Strong }
  deal_readiness :=
    { status := .Strong
      strengths := []
      constraints := ["No rating grade provided; cannot anchor risk positioning."] }
  mandate_fit_summary := "Acme Manufacturing readiness summary."
  rm_actions := ["Obtain/confirm latest internal/external rating grade and date."]
  talking_points := [tpStrong]
  created_at := none
  notes := none

/-- A summary with no constraints, one rm action and one talking point,
exercising the `/ai/explain` fallback fields. -/
def explainExampleSummary : DealSummary where
  client_name := "Acme Manufacturing"
  group_name := none
  sector := .Manufacturing
  rating_anchor := { system := "Credit Lens", grade := "A", outlook := none, as_of := none }
  eligibility := { score := 5, drivers := [], breakdown := [] }
  financial_signals :=
    { revenue_trend_3y := .Improving
      margin_trend_3y := .Improving
      leverage_position := .Low
      cashflow_quality := .Strong
      earnings_volatility := .Low
      capex_growth_investment := .Low
      financial_transparency := .Strong }
  deal_readiness := { status := .Strong, strengths := [], constraints := [] }
  mandate_fit_summary := "Acme Manufacturing readiness summary."
  rm_actions := ["Obtain/confirm latest internal/external rating grade and date."]
  talking_points := [tpStrong]
  created_at := none
  notes := none

/-- A deal input whose notes contain an email address. -/
def emailNotesInput : DealInput :=
  { exampleAllFavorable with notes := some "Reach me at john@example.com" }

/-! ## Helper lemmas: whitespace characters and the matcher classes -/

theorem ws_classes {c : Char} (h : c.isWhitespace = true) :
    isWordChar c = false ∧ c.isUpper = false ∧ c.isDigit = false ∧ c.isAlpha = false ∧
      isLocalChar c = false ∧ isDomainChar c = false ∧ (c == '.') = false ∧
      (c == '@') = false := by
  simp only [Char.isWhitespace, Bool.or_eq_true, decide_eq_true_eq, or_assoc] at h
  rcases h with rfl | rfl | rfl | rfl <;> decide

/-! ## Substring occurrence lemmas (`hasSub`) -/

theorem leadSeg_append {p l : List Char} (r : List Char) (h : leadSeg p l = true) :
    leadSeg p (l ++ r) = true := by
  induction p generalizing l with
  | nil => rfl
  | cons x xs ih =>
    cases l with
    | nil => exact absurd h (by simp [leadSeg])
    | cons y ys =>
      simp only [leadSeg, Bool.and_eq_true] at h
      simp only [List.cons_append, leadSeg, Bool.and_eq_true]
      exact ⟨h.1, ih h.2⟩

theorem hasSub_nil_pat (l : List Char) : hasSub [] l = true := by
  cases l with
  | nil => rfl
  | cons c cs => simp [hasSub, leadSeg]

theorem hasSub_append_left {p l : List Char} (r : List Char) (h : hasSub p l = true) :
    hasSub p (l ++ r) = true := by
  induction l with
  | nil =>
    cases p with
    | nil => simpa using hasSub_nil_pat r
    | cons x xs => exact absurd h (by simp [hasSub, leadSeg])
  | cons c cs ih =>
    simp only [hasSub, Bool.or_eq_true] at h
    simp only [List.cons_append, hasSub, Bool.or_eq_true]
    rcases h with h | h
    · exact Or.inl (by simpa using leadSeg_append r h)
    · exact Or.inr (ih h)

/-! ## Boundary-helper lemmas -/

theorem lastWord_cons (c : Char) (l : List Char) :
    lastWord (c :: l) = prevAt (isWordChar c) l := by
  cases l <;> rfl

theorem prevAt_ne_nil {l : List Char} (b : Bool) (h : l ≠ []) : prevAt b l = lastWord l := by
  cases l with
  | nil => exact absurd rfl h
  | cons c cs => rfl

theorem lastWord_append {xs ys : List Char} (h : ys ≠ []) :
    lastWord (xs ++ ys) = lastWord ys := by
  induction xs with
  | nil => rfl
  | cons x xs ih =>
    have hne : xs ++ ys ≠ [] := fun hc => h (List.append_eq_nil.mp hc).2
    rw [List.cons_append, lastWord_cons, prevAt_ne_nil _ hne, ih]

theorem headWord_append_ne {xs : List Char} (ys : List Char) (h : xs ≠ []) :
    headWord (xs ++ ys) = headWord xs := by
  cases xs with
  | nil => exact absurd rfl h
  | cons x xs => rfl

theorem lastWord_of_all {l : List Char} (hne : l ≠ [])
    (h : ∀ c ∈ l, isWordChar c = true) : lastWord l = true := by
  induction l with
  | nil => exact absurd rfl hne
  | cons c cs ih =>
    cases cs with
    | nil => simpa [lastWord] using h c (by simp)
    | cons x xs =>
      rw [lastWord_cons, prevAt_ne_nil _ (by simp)]
      exact ih (by simp) fun y hy => h y (by simp [hy])

/-! ## Whitespace padding is invisible to the matchers and the search -/

theorem digitTail_append_ws {w : List Char} (hw : ∀ c ∈ w, c.isWhitespace = true) :
    ∀ (l : List Char) (cnt : Nat), digitTail cnt (l ++ w) = digitTail cnt l := by
  intro l
  induction l with
  | nil =>
    intro cnt
    cases w with
    | nil => rfl
    | cons c cs =>
      have hc := ws_classes (hw c (by simp))
      simp [digitTail, hc.1, hc.2.2.1]
  | cons c cs ih =>
    intro cnt
    simp only [List.cons_append, List.append_eq, digitTail, ih]

theorem ibanTail_append_ws {w : List Char} (hw : ∀ c ∈ w, c.isWhitespace = true) :
    ∀ (l : List Char) (cnt : Nat), ibanTail cnt (l ++ w) = ibanTail cnt l := by
  intro l
  induction l with
  | nil =>
    intro cnt
    cases w with
    | nil => rfl
    | cons c cs =>
      have hc := ws_classes (hw c (by simp))
      simp [ibanTail, hc.1, hc.2.1, hc.2.2.1]
  | cons c cs ih =>
    intro cnt
    simp only [List.cons_append, List.append_eq, ibanTail, ih]

theorem tldTail_append_ws {w : List Char} (hw : ∀ c ∈ w, c.isWhitespace = true) :
    ∀ (l : List Char) (cnt : Nat), tldTail cnt (l ++ w) = tldTail cnt l := by
  intro l
  induction l with
  | nil =>
    intro cnt
    cases w with
    | nil => rfl
    | cons c cs =>
      have hc := ws_classes (hw c (by simp))
      simp [tldTail, hc.1, hc.2.2.2.1]
  | cons c cs ih =>
    intro cnt
    simp only [List.cons_append, List.append_eq, tldTail, ih]

theorem domTail_append_ws {w : List Char} (hw : ∀ c ∈ w, c.isWhitespace = true) :
    ∀ (l : List Char) (cnt : Nat), domTail cnt (l ++ w) = domTail cnt l := by
  intro l
  induction l with
  | nil =>
    intro cnt
    cases w with
    | nil => rfl
    | cons c cs =>
      have hc := ws_classes (hw c (by simp))
      simp [domTail, hc.2.2.2.2.2.1, hc.2.2.2.2.2.2.1]
  | cons c cs ih =>
    intro cnt
    simp only [List.cons_append, List.append_eq, domTail, ih, tldTail_append_ws hw]

theorem locTail_append_ws {w : List Char} (hw : ∀ c ∈ w, c.isWhitespace = true) :
    ∀ (l : List Char) (cnt : Nat), locTail cnt (l ++ w) = locTail cnt l := by
  intro l
  induction l with
  | nil =>
    intro cnt
    cases w with
    | nil => rfl
    | cons c cs =>
      have hc := ws_classes (hw c (by simp))
      simp [locTail, hc.2.2.2.2.1, hc.2.2.2.2.2.2.2]
  | cons c cs ih =>
    intro cnt
    simp only [List.cons_append, List.append_eq, locTail, ih, domTail_append_ws hw]

theorem matchDigits_append_ws {w : List Char} (hw : ∀ c ∈ w, c.isWhitespace = true)
    (l : List Char) : matchDigits (l ++ w) = matchDigits l :=
  digitTail_append_ws hw l 0

theorem matchEmail_append_ws {w : List Char} (hw : ∀ c ∈ w, c.isWhitespace = true)
    (l : List Char) : matchEmail (l ++ w) = matchEmail l :=
  locTail_append_ws hw l 0

theorem matchIban_ws_head {c : Char} (hc : c.isWhitespace = true) (cs : List Char) :
    matchIban (c :: cs) = false := by
  have h := ws_classes hc
  match cs with
  | [] => rfl
  | [b] => rfl
  | [b, d] => rfl
  | b :: d :: e :: rest => simp [matchIban, h.2.1]

theorem matchDigits_ws_head {c : Char} (hc : c.isWhitespace = true) (cs : List Char) :
    matchDigits (c :: cs) = false := by
  have h := ws_classes hc
  simp [matchDigits, digitTail, h.2.2.1]

theorem matchEmail_ws_head {c : Char} (hc : c.isWhitespace = true) (cs : List Char) :
    matchEmail (c :: cs) = false := by
  have h := ws_classes hc
  simp [matchEmail, locTail, h.2.2.2.2.1, h.2.2.2.2.2.2.2]

theorem matchIban_append_ws {w : List Char} (hw : ∀ c ∈ w, c.isWhitespace = true) :
    ∀ l, matchIban (l ++ w) = matchIban l := by
  intro l
  match l with
  | a :: b :: c :: d :: rest => simp [matchIban, ibanTail_append_ws hw]
  | [] =>
    cases w with
    | nil => rfl
    | cons c cs => simpa using matchIban_ws_head (hw c (by simp)) cs
  | [a] =>
    cases w with
    | nil => rfl
    | cons c cs =>
      have h := ws_classes (hw c (by simp))
      match cs with
      | [] => rfl
      | [x] => rfl
      | x :: y :: rest => simp [matchIban, h.2.1]
  | [a, b] =>
    cases w with
    | nil => rfl
    | cons c cs =>
      have h := ws_classes (hw c (by simp))
      match cs with
      | [] => rfl
      | x :: rest => simp [matchIban, h.2.2.1]
  | [a, b, d] =>
    cases w with
    | nil => rfl
    | cons c cs =>
      have h := ws_classes (hw c (by simp))
      simp [matchIban, h.2.2.1]

/-- A search over whitespace-only text fails for any matcher that fails on a
leading whitespace character. -/
theorem searchPat_allws {m : List Char → Bool}
    (hm : ∀ c cs, c.isWhitespace = true → m (c :: cs) = false) :
    ∀ w, (∀ c ∈ w, c.isWhitespace = true) → ∀ prev, searchPat m prev w = false := by
  intro w
  induction w with
  | nil => intro _ _; rfl
  | cons c cs ih =>
    intro hw prev
    simp [searchPat, hm c cs (hw c (by simp)), ih fun y hy => hw y (by simp [hy])]

/-- Right whitespace padding is invisible to the search. -/
theorem searchPat_append_ws {m : List Char → Bool} {w : List Char}
    (hminv : ∀ l, m (l ++ w) = m l) (hww : ∀ prev, searchPat m prev w = false) :
    ∀ (l : List Char) (prev : Bool), searchPat m prev (l ++ w) = searchPat m prev l := by
  intro l
  induction l with
  | nil => intro prev; exact hww prev
  | cons c cs ih =>
    intro prev
    have h1 : m (c :: (cs ++ w)) = m (c :: cs) := by
      have := hminv (c :: cs); simpa using this
    simp only [List.cons_append, List.append_eq, searchPat, h1, ih]

/-- Left whitespace padding is invisible to the search started at the text
edge. -/
theorem searchPat_ws_cons {m : List Char → Bool} :
    ∀ w : List Char, (∀ c ∈ w, c.isWhitespace = true) →
      ∀ l, searchPat m false (w ++ l) = searchPat m false l := by
  intro w
  induction w with
  | nil => intro _ l; rfl
  | cons c cs ih =>
    intro hw l
    have h := ws_classes (hw c (by simp))
    simp only [List.cons_append, searchPat, h.1, bne_self_eq_false, Bool.false_and,
      Bool.false_or]
    exact ih (fun y hy => hw y (by simp [hy])) l

/-! ## Existential characterisations of the matchers -/

theorem digitTail_iff :
    ∀ (l : List Char) (cnt : Nat),
      digitTail cnt l = true ↔
        ∃ mid rest, l = mid ++ rest ∧ (∀ c ∈ mid, c.isDigit = true) ∧
          12 ≤ cnt + mid.length ∧ cnt + mid.length ≤ 19 ∧ headWord rest = false := by
  intro l
  induction l with
  | nil =>
    intro cnt
    constructor
    · intro h
      simp only [digitTail, Bool.and_eq_true, decide_eq_true_eq] at h
      exact ⟨[], [], rfl, by simp, by simpa using h.1, by simpa using h.2, rfl⟩
    · rintro ⟨mid, rest, hdec, _, h12, h19, _⟩
      obtain ⟨hm, hr⟩ := List.append_eq_nil.mp hdec.symm
      subst hm
      simp only [List.length_nil, Nat.add_zero] at h12 h19
      simp only [digitTail, Bool.and_eq_true, decide_eq_true_eq]
      exact ⟨h12, h19⟩
  | cons c cs ih =>
    intro cnt
    constructor
    · intro h
      simp only [digitTail, Bool.or_eq_true, Bool.and_eq_true, decide_eq_true_eq] at h
      rcases h with ⟨⟨h12, h19⟩, hw⟩ | ⟨⟨hlt, hd⟩, htail⟩
      · exact ⟨[], c :: cs, rfl, by simp, by simpa using h12, by simpa using h19,
          by simpa [headWord] using hw⟩
      · obtain ⟨mid, rest, hdec, hdig, h12, h19, hw⟩ := (ih (cnt + 1)).mp htail
        refine ⟨c :: mid, rest, by simp [hdec], ?_,
          by simp only [List.length_cons]; omega, by simp only [List.length_cons]; omega, hw⟩
        intro y hy
        rcases List.mem_cons.mp hy with rfl | hy
        · exact hd
        · exact hdig y hy
    · rintro ⟨mid, rest, hdec, hdig, h12, h19, hw⟩
      cases mid with
      | nil =>
        simp only [List.nil_append] at hdec
        subst hdec
        simp only [List.length_nil, Nat.add_zero] at h12 h19
        simp only [digitTail, Bool.or_eq_true, Bool.and_eq_true, decide_eq_true_eq]
        exact Or.inl ⟨⟨h12, h19⟩, by simpa [headWord] using hw⟩
      | cons m ms =>
        rw [List.cons_append] at hdec
        injection hdec with hcm hcs
        subst hcm
        simp only [List.length_cons] at h12 h19
        simp only [digitTail, Bool.or_eq_true, Bool.and_eq_true, decide_eq_true_eq]
        refine Or.inr ⟨⟨by omega, hdig c (by simp)⟩, ?_⟩
        exact (ih (cnt + 1)).mpr ⟨ms, rest, hcs, fun y hy => hdig y (by simp [hy]),
          by omega, by omega, hw⟩

theorem ibanTail_iff :
    ∀ (l : List Char) (cnt : Nat),
      ibanTail cnt l = true ↔
        ∃ mid rest, l = mid ++ rest ∧ (∀ c ∈ mid, (c.isUpper || c.isDigit) = true) ∧
          11 ≤ cnt + mid.length ∧ cnt + mid.length ≤ 30 ∧ headWord rest = false := by
  intro l
  induction l with
  | nil =>
    intro cnt
    constructor
    · intro h
      simp only [ibanTail, Bool.and_eq_true, decide_eq_true_eq] at h
      exact ⟨[], [], rfl, by simp, by simpa using h.1, by simpa using h.2, rfl⟩
    · rintro ⟨mid, rest, hdec, _, h11, h30, _⟩
      obtain ⟨hm, hr⟩ := List.append_eq_nil.mp hdec.symm
      subst hm
      simp only [List.length_nil, Nat.add_zero] at h11 h30
      simp only [ibanTail, Bool.and_eq_true, decide_eq_true_eq]
      exact ⟨h11, h30⟩
  | cons c cs ih =>
    intro cnt
    constructor
    · intro h
      simp only [ibanTail, Bool.or_eq_true, Bool.and_eq_true, decide_eq_true_eq] at h
      rcases h with ⟨⟨h11, h30⟩, hw⟩ | ⟨⟨hlt, hd⟩, htail⟩
      · exact ⟨[], c :: cs, rfl, by simp, by simpa using h11, by simpa using h30,
          by simpa [headWord] using hw⟩
      · obtain ⟨mid, rest, hdec, hcls, h11, h30, hw⟩ := (ih (cnt + 1)).mp htail
        refine ⟨c :: mid, rest, by simp [hdec], ?_,
          by simp only [List.length_cons]; omega, by simp only [List.length_cons]; omega, hw⟩
        intro y hy
        rcases List.mem_cons.mp hy with rfl | hy
        · simp only [Bool.or_eq_true]; exact hd
        · exact hcls y hy
    · rintro ⟨mid, rest, hdec, hcls, h11, h30, hw⟩
      cases mid with
      | nil =>
        simp only [List.nil_append] at hdec
        subst hdec
        simp only [List.length_nil, Nat.add_zero] at h11 h30
        simp only [ibanTail, Bool.or_eq_true, Bool.and_eq_true, decide_eq_true_eq]
        exact Or.inl ⟨⟨h11, h30⟩, by simpa [headWord] using hw⟩
      | cons m ms =>
        rw [List.cons_append] at hdec
        injection hdec with hcm hcs
        subst hcm
        simp only [List.length_cons] at h11 h30
        simp only [ibanTail, Bool.or_eq_true, Bool.and_eq_true, decide_eq_true_eq]
        refine Or.inr ⟨⟨by omega, by have := hcls c (by simp); simpa [Bool.or_eq_true] using this⟩, ?_⟩
        exact (ih (cnt + 1)).mpr ⟨ms, rest, hcs, fun y hy => hcls y (by simp [hy]),
          by omega, by omega, hw⟩

theorem tldTail_iff :
    ∀ (l : List Char) (cnt : Nat),
      tldTail cnt l = true ↔
        ∃ mid rest, l = mid ++ rest ∧ (∀ c ∈ mid, c.isAlpha = true) ∧
          2 ≤ cnt + mid.length ∧ headWord rest = false := by
  intro l
  induction l with
  | nil =>
    intro cnt
    constructor
    · intro h
      simp only [tldTail, decide_eq_true_eq] at h
      exact ⟨[], [], rfl, by simp, by simpa using h, rfl⟩
    · rintro ⟨mid, rest, hdec, _, h2, _⟩
      obtain ⟨hm, hr⟩ := List.append_eq_nil.mp hdec.symm
      subst hm
      simp only [List.length_nil, Nat.add_zero] at h2
      simpa [tldTail] using h2
  | cons c cs ih =>
    intro cnt
    constructor
    · intro h
      simp only [tldTail, Bool.or_eq_true, Bool.and_eq_true, decide_eq_true_eq] at h
      rcases h with ⟨h2, hw⟩ | ⟨ha, htail⟩
      · exact ⟨[], c :: cs, rfl, by simp, by simpa using h2,
          by simpa [headWord] using hw⟩
      · obtain ⟨mid, rest, hdec, hcls, h2, hw⟩ := (ih (cnt + 1)).mp htail
        refine ⟨c :: mid, rest, by simp [hdec], ?_,
          by simp only [List.length_cons]; omega, hw⟩
        intro y hy
        rcases List.mem_cons.mp hy with rfl | hy
        · exact ha
        · exact hcls y hy
    · rintro ⟨mid, rest, hdec, hcls, h2, hw⟩
      cases mid with
      | nil =>
        simp only [List.nil_append] at hdec
        subst hdec
        simp only [List.length_nil, Nat.add_zero] at h2
        simp only [tldTail, Bool.or_eq_true, Bool.and_eq_true, decide_eq_true_eq]
        exact Or.inl ⟨h2, by simpa [headWord] using hw⟩
      | cons m ms =>
        rw [List.cons_append] at hdec
        injection hdec with hcm hcs
        subst hcm
        simp only [List.length_cons] at h2
        simp only [tldTail, Bool.or_eq_true, Bool.and_eq_true, decide_eq_true_eq]
        refine Or.inr ⟨hcls c (by simp), ?_⟩
        exact (ih (cnt + 1)).mpr ⟨ms, rest, hcs, fun y hy => hcls y (by simp [hy]),
          by omega, hw⟩

theorem domTail_iff :
    ∀ (l : List Char) (cnt : Nat),
      domTail cnt l = true ↔
        ∃ mid rest, l = mid ++ '.' :: rest ∧ (∀ c ∈ mid, isDomainChar c = true) ∧
          1 ≤ cnt + mid.length ∧ tldTail 0 rest = true := by
  intro l
  induction l with
  | nil =>
    intro cnt
    constructor
    · intro h
      simp [domTail] at h
    · rintro ⟨mid, rest, hdec, _, _, _⟩
      exact absurd (List.append_eq_nil.mp hdec.symm).2 (List.cons_ne_nil _ _)
  | cons c cs ih =>
    intro cnt
    constructor
    · intro h
      simp only [domTail, Bool.or_eq_true, Bool.and_eq_true, decide_eq_true_eq,
        beq_iff_eq] at h
      rcases h with ⟨⟨h1, rfl⟩, htld⟩ | ⟨hdom, htail⟩
      · exact ⟨[], cs, rfl, by simp, by simpa using h1, htld⟩
      · obtain ⟨mid, rest, hdec, hcls, h1, htld⟩ := (ih (cnt + 1)).mp htail
        refine ⟨c :: mid, rest, by simp [hdec], ?_,
          by simp only [List.length_cons]; omega, htld⟩
        intro y hy
        rcases List.mem_cons.mp hy with rfl | hy
        · exact hdom
        · exact hcls y hy
    · rintro ⟨mid, rest, hdec, hcls, h1, htld⟩
      cases mid with
      | nil =>
        simp only [List.nil_append] at hdec
        injection hdec with hcm hcs
        subst hcm hcs
        simp only [List.length_nil, Nat.add_zero] at h1
        simp only [domTail, Bool.or_eq_true, Bool.and_eq_true, decide_eq_true_eq,
          beq_iff_eq]
        exact Or.inl ⟨⟨h1, trivial⟩, htld⟩
      | cons m ms =>
        rw [List.cons_append] at hdec
        injection hdec with hcm hcs
        subst hcm
        simp only [domTail, Bool.or_eq_true, Bool.and_eq_true, decide_eq_true_eq]
        refine Or.inr ⟨hcls c (by simp), ?_⟩
        exact (ih (cnt + 1)).mpr ⟨ms, rest, hcs, fun y hy => hcls y (by simp [hy]),
          by omega, htld⟩

theorem locTail_iff :
    ∀ (l : List Char) (cnt : Nat),
      locTail cnt l = true ↔
        ∃ mid rest, l = mid ++ '@' :: rest ∧ (∀ c ∈ mid, isLocalChar c = true) ∧
          1 ≤ cnt + mid.length ∧ domTail 0 rest = true := by
  intro l
  induction l with
  | nil =>
    intro cnt
    constructor
    · intro h
      simp [locTail] at h
    · rintro ⟨mid, rest, hdec, _, _, _⟩
      exact absurd (List.append_eq_nil.mp hdec.symm).2 (List.cons_ne_nil _ _)
  | cons c cs ih =>
    intro cnt
    constructor
    · intro h
      simp only [locTail, Bool.or_eq_true, Bool.and_eq_true, decide_eq_true_eq,
        beq_iff_eq] at h
      rcases h with ⟨⟨h1, rfl⟩, hdom⟩ | ⟨hloc, htail⟩
      · exact ⟨[], cs, rfl, by simp, by simpa using h1, hdom⟩
      · obtain ⟨mid, rest, hdec, hcls, h1, hdom⟩ := (ih (cnt + 1)).mp htail
        refine ⟨c :: mid, rest, by simp [hdec], ?_,
          by simp only [List.length_cons]; omega, hdom⟩
        intro y hy
        rcases List.mem_cons.mp hy with rfl | hy
        · exact hloc
        · exact hcls y hy
    · rintro ⟨mid, rest, hdec, hcls, h1, hdom⟩
      cases mid with
      | nil =>
        simp only [List.nil_append] at hdec
        injection hdec with hcm hcs
        subst hcm hcs
        simp only [List.length_nil, Nat.add_zero] at h1
        simp only [locTail, Bool.or_eq_true, Bool.and_eq_true, decide_eq_true_eq,
          beq_iff_eq]
        exact Or.inl ⟨⟨h1, trivial⟩, hdom⟩
      | cons m ms =>
        rw [List.cons_append] at hdec
        injection hdec with hcm hcs
        subst hcm
        simp only [locTail, Bool.or_eq_true, Bool.and_eq_true, decide_eq_true_eq]
        refine Or.inr ⟨hcls c (by simp), ?_⟩
        exact (ih (cnt + 1)).mpr ⟨ms, rest, hcs, fun y hy => hcls y (by simp [hy]),
          by omega, hdom⟩

theorem matchDigits_iff (l : List Char) :
    matchDigits l = true ↔
      ∃ tok post, l = tok ++ post ∧ DigitTok tok ∧ headWord post = false := by
  constructor
  · intro h
    obtain ⟨mid, rest, hdec, hdig, h12, h19, hw⟩ := (digitTail_iff l 0).mp h
    exact ⟨mid, rest, hdec, ⟨by simpa using h12, by simpa using h19, hdig⟩, hw⟩
  · rintro ⟨tok, post, hdec, ⟨h12, h19, hdig⟩, hw⟩
    exact (digitTail_iff l 0).mpr ⟨tok, post, hdec, hdig, by simpa using h12,
      by simpa using h19, hw⟩

theorem matchIban_iff (l : List Char) :
    matchIban l = true ↔
      ∃ tok post, l = tok ++ post ∧ IbanTok tok ∧ headWord post = false := by
  constructor
  · intro h
    match l, h with
    | a :: b :: c :: d :: rest, h =>
      simp only [matchIban, Bool.and_eq_true] at h
      obtain ⟨⟨⟨⟨ha, hb⟩, hc⟩, hd⟩, htail⟩ := h
      obtain ⟨mid, rest2, hdec, hcls, h11, h30, hw⟩ := (ibanTail_iff rest 0).mp htail
      refine ⟨a :: b :: c :: d :: mid, rest2, by simp [hdec], ?_, hw⟩
      refine ⟨[a, b], [c, d], mid, by simp, rfl, ?_, rfl, ?_, by simpa using h11,
        by simpa using h30, hcls⟩
      · intro x hx
        rcases List.mem_cons.mp hx with rfl | hx
        · exact ha
        · simpa using List.mem_singleton.mp hx ▸ hb
      · intro x hx
        rcases List.mem_cons.mp hx with rfl | hx
        · exact hc
        · simpa using List.mem_singleton.mp hx ▸ hd
  · rintro ⟨tok, post, hdec, ⟨ap, bp, cp, htok, hal, hau, hbl, hbd, h11, h30, hcls⟩, hw⟩
    obtain ⟨a1, a2, rfl⟩ := List.length_eq_two.mp hal
    obtain ⟨b1, b2, rfl⟩ := List.length_eq_two.mp hbl
    subst htok hdec
    simp only [List.cons_append, List.nil_append, List.append_assoc]
    simp only [matchIban, Bool.and_eq_true]
    refine ⟨⟨⟨⟨hau a1 (by simp), hau a2 (by simp)⟩, hbd b1 (by simp)⟩, hbd b2 (by simp)⟩, ?_⟩
    exact (ibanTail_iff _ 0).mpr ⟨cp, post, rfl, hcls, by simpa using h11,
      by simpa using h30, hw⟩

theorem matchEmail_iff (l : List Char) :
    matchEmail l = true ↔
      ∃ tok post, l = tok ++ post ∧ EmailTok tok ∧ headWord post = false := by
  constructor
  · intro h
    obtain ⟨lp, rest1, hdec1, hlp, hlp1, hdom⟩ := (locTail_iff l 0).mp h
    obtain ⟨dp, rest2, hdec2, hdp, hdp1, htld⟩ := (domTail_iff rest1 0).mp hdom
    obtain ⟨tp, post, hdec3, htp, htp2, hw⟩ := (tldTail_iff rest2 0).mp htld
    refine ⟨lp ++ '@' :: (dp ++ '.' :: tp), post, ?_, ?_, hw⟩
    · subst hdec3 hdec2 hdec1
      simp [List.append_assoc]
    · refine ⟨lp, dp, tp, rfl, ?_, hlp, ?_, hdp, by simpa using htp2, htp⟩
      · intro hnil; subst hnil; simpa using hlp1
      · intro hnil; subst hnil; simpa using hdp1
  · rintro ⟨tok, post, hdec, ⟨lp, dp, tp, htok, hlpne, hlp, hdpne, hdp, htp2, htp⟩, hw⟩
    subst htok hdec
    refine (locTail_iff _ 0).mpr ⟨lp, dp ++ '.' :: tp ++ post, by simp [List.append_assoc],
      hlp, by simpa using List.length_pos.mpr hlpne, ?_⟩
    refine (domTail_iff _ 0).mpr ⟨dp, tp ++ post, by simp [List.append_assoc],
      hdp, by simpa using List.length_pos.mpr hdpne, ?_⟩
    exact (tldTail_iff _ 0).mpr ⟨tp, post, rfl, htp, by simpa using htp2, hw⟩

/-! ## Token-shape facts -/

theorem DigitTok_ne_nil {tok : List Char} (h : DigitTok tok) : tok ≠ [] := by
  rintro rfl
  simpa using h.1

theorem DigitTok_lastWord {tok : List Char} (h : DigitTok tok) : lastWord tok = true := by
  refine lastWord_of_all (DigitTok_ne_nil h) fun c hc => ?_
  simp [isWordChar, h.2.2 c hc]

theorem IbanTok_ne_nil {tok : List Char} (h : IbanTok tok) : tok ≠ [] := by
  rintro rfl
  obtain ⟨a, b, c, htok, hal, _, _, _, h11, _, _⟩ := h
  obtain ⟨hab, hc⟩ := List.append_eq_nil.mp htok.symm
  obtain ⟨ha, hb⟩ := List.append_eq_nil.mp hab
  subst ha
  simp at hal

theorem IbanTok_lastWord {tok : List Char} (h : IbanTok tok) : lastWord tok = true := by
  refine lastWord_of_all (IbanTok_ne_nil h) fun x hx => ?_
  obtain ⟨a, b, c, htok, _, hau, _, hbd, _, _, hcls⟩ := h
  subst htok
  simp only [List.append_assoc, List.mem_append] at hx
  rcases hx with hx | hx | hx
  · simp [isWordChar, Char.isAlpha, hau x hx]
  · simp [isWordChar, hbd x hx]
  · have := hcls x hx
    simp only [Bool.or_eq_true] at this
    rcases this with hcase | hcase
    · simp [isWordChar, Char.isAlpha, hcase]
    · simp [isWordChar, hcase]

theorem EmailTok_ne_nil {tok : List Char} (h : EmailTok tok) : tok ≠ [] := by
  rintro rfl
  obtain ⟨lp, dp, tp, htok, _, _, _, _, _, _⟩ := h
  exact absurd (List.append_eq_nil.mp htok.symm).2 (List.cons_ne_nil _ _)

theorem EmailTok_lastWord {tok : List Char} (h : EmailTok tok) : lastWord tok = true := by
  obtain ⟨lp, dp, tp, htok, _, _, _, _, htp2, htp⟩ := h
  have htpne : tp ≠ [] := by
    intro hnil; subst hnil; simpa using htp2
  subst htok
  rw [lastWord_append (by simp), lastWord_cons, prevAt_ne_nil _ (by simp [htpne]),
    lastWord_append (List.cons_ne_nil _ _), lastWord_cons, prevAt_ne_nil _ htpne]
  exact lastWord_of_all htpne fun c hc => by simp [isWordChar, htp c hc]

/-! ## The generic search characterisation -/

theorem searchPat_iff (m : List Char → Bool) :
    ∀ (l : List Char) (prev : Bool),
      searchPat m prev l = true ↔
        ∃ pre suf, l = pre ++ suf ∧ suf ≠ [] ∧ prevAt prev pre ≠ headWord suf ∧
          m suf = true := by
  intro l
  induction l with
  | nil =>
    intro prev
    constructor
    · intro h; cases h
    · rintro ⟨pre, suf, hdec, hne, _, _⟩
      exact absurd (List.append_eq_nil.mp hdec.symm).2 hne
  | cons c cs ih =>
    intro prev
    constructor
    · intro h
      simp only [searchPat, Bool.or_eq_true, Bool.and_eq_true, bne_iff_ne, ne_eq] at h
      rcases h with ⟨hb, hm⟩ | h
      · exact ⟨[], c :: cs, rfl, List.cons_ne_nil _ _, by simpa [prevAt, headWord] using hb, hm⟩
      · obtain ⟨pre, suf, hdec, hne, hbnd, hm⟩ := (ih (isWordChar c)).mp h
        refine ⟨c :: pre, suf, by simp [hdec], hne, ?_, hm⟩
        rwa [prevAt_ne_nil _ (List.cons_ne_nil _ _), lastWord_cons]
    · rintro ⟨pre, suf, hdec, hne, hbnd, hm⟩
      simp only [searchPat, Bool.or_eq_true, Bool.and_eq_true, bne_iff_ne, ne_eq]
      cases pre with
      | nil =>
        simp only [List.nil_append] at hdec
        subst hdec
        exact Or.inl ⟨by simpa [prevAt, headWord] using hbnd, hm⟩
      | cons p ps =>
        rw [List.cons_append] at hdec
        injection hdec with hcp hcs
        subst hcp
        refine Or.inr ((ih (isWordChar c)).mpr ⟨ps, suf, hcs, hne, ?_, hm⟩)
        rwa [prevAt_ne_nil _ (List.cons_ne_nil _ _), lastWord_cons] at hbnd

/-- Search success for a matcher with an existential token characterisation
is exactly token containment with word boundaries. -/
theorem searchPat_hasTok {m : List Char → Bool} {P : List Char → Prop}
    (hm : ∀ l, m l = true ↔ ∃ tok post, l = tok ++ post ∧ P tok ∧ headWord post = false)
    (hPne : ∀ tok, P tok → tok ≠ [])
    (hPlast : ∀ tok, P tok → lastWord tok = true) :
    ∀ l, searchPat m false l = true ↔ HasTokL P l := by
  intro l
  constructor
  · intro h
    obtain ⟨pre, suf, hdec, hne, hbnd, hmm⟩ := (searchPat_iff m l false).mp h
    obtain ⟨tok, post, hsuf, hP, hw⟩ := (hm suf).mp hmm
    subst hsuf
    refine ⟨pre, tok, post, by simp [hdec], hP, ?_, ?_⟩
    · rwa [headWord_append_ne post (hPne tok hP)] at hbnd
    · rw [hPlast tok hP, hw]
      simp
  · rintro ⟨pre, tok, post, hdec, hP, hbnd, hlast⟩
    refine (searchPat_iff m l false).mpr ⟨pre, tok ++ post, by simp [hdec], ?_, ?_, ?_⟩
    · intro hnil
      exact hPne tok hP (List.append_eq_nil.mp hnil).1
    · rwa [headWord_append_ne post (hPne tok hP)]
    · refine (hm _).mpr ⟨tok, post, rfl, hP, ?_⟩
      rw [hPlast tok hP] at hlast
      exact Bool.not_eq_true _ ▸ (Ne.symm hlast)

/-! ## Stripping is invisible to the search -/

theorem pyStrip_decomp (l : List Char) :
    ∃ w1 w2, (∀ c ∈ w1, c.isWhitespace = true) ∧ (∀ c ∈ w2, c.isWhitespace = true) ∧
      l = w1 ++ pyStrip l ++ w2 := by
  refine ⟨l.takeWhile Char.isWhitespace,
    ((l.dropWhile Char.isWhitespace).reverse.takeWhile Char.isWhitespace).reverse,
    ?_, ?_, ?_⟩
  · exact fun c hc => List.mem_takeWhile_imp hc
  · exact fun c hc => List.mem_takeWhile_imp (List.mem_reverse.mp hc)
  · unfold pyStrip
    conv_lhs => rw [← List.takeWhile_append_dropWhile Char.isWhitespace l]
    rw [List.append_assoc]
    congr 1
    conv_lhs => rw [← List.reverse_reverse (l.dropWhile Char.isWhitespace),
      ← List.takeWhile_append_dropWhile Char.isWhitespace
        (l.dropWhile Char.isWhitespace).reverse,
      List.reverse_append]

theorem contains_sensitive_eq_search (s : String) :
    contains_sensitive s =
      (searchPat matchIban false s.data || searchPat matchDigits false s.data ||
        searchPat matchEmail false s.data) := by
  obtain ⟨w1, w2, hw1, hw2, hdec⟩ := pyStrip_decomp s.data
  have key : ∀ m : List Char → Bool, (∀ l, m (l ++ w2) = m l) →
      (∀ c cs, c.isWhitespace = true → m (c :: cs) = false) →
      searchPat m false s.data = searchPat m false (pyStrip s.data) := by
    intro m hminv hmws
    conv_lhs => rw [hdec]
    rw [List.append_assoc, searchPat_ws_cons w1 hw1,
      searchPat_append_ws hminv (searchPat_allws hmws w2 hw2)]
  rw [key matchIban (matchIban_append_ws hw2) (fun c cs hc => matchIban_ws_head hc cs),
    key matchDigits (matchDigits_append_ws hw2) (fun c cs hc => matchDigits_ws_head hc cs),
    key matchEmail (matchEmail_append_ws hw2) (fun c cs hc => matchEmail_ws_head hc cs)]
  simp only [contains_sensitive]
  by_cases hE : (pyStrip s.data).isEmpty
  · have hnil : pyStrip s.data = [] := by simpa using hE
    rw [if_pos hE, hnil]
    rfl
  · rw [if_neg hE]

/-- A text containing an email address (in the sense of the email pattern)
is flagged by the full scanner. -/
theorem contains_email_imp (s : String) (h : contains_email s = true) :
    contains_sensitive s = true := by
  simp only [contains_email] at h
  simp only [contains_sensitive]
  by_cases hE : (pyStrip s.data).isEmpty
  · rw [if_pos hE] at h
    cases h
  · rw [if_neg hE] at h ⊢
    simp [h]

/-- Scanner success is exactly spec-level sensitive-token containment. -/
theorem contains_sensitive_iff_spec (s : String) :
    contains_sensitive s = true ↔ SensitiveSpec s := by
  rw [contains_sensitive_eq_search]
  simp only [Bool.or_eq_true]
  have h1 := searchPat_hasTok matchIban_iff (fun _ h => IbanTok_ne_nil h)
    (fun _ h => IbanTok_lastWord h) s.data
  have h2 := searchPat_hasTok matchDigits_iff (fun _ h => DigitTok_ne_nil h)
    (fun _ h => DigitTok_lastWord h) s.data
  have h3 := searchPat_hasTok matchEmail_iff (fun _ h => EmailTok_ne_nil h)
    (fun _ h => EmailTok_lastWord h) s.data
  exact (or_congr (or_congr h1 h2) h3).trans or_assoc

/-- Whitespace-only text is never flagged. -/
theorem contains_sensitive_ws (s : String) (h : ∀ c ∈ s.data, c.isWhitespace = true) :
    contains_sensitive s = false := by
  rw [contains_sensitive_eq_search]
  rw [searchPat_allws (fun c cs hc => matchIban_ws_head hc cs) s.data h false,
    searchPat_allws (fun c cs hc => matchDigits_ws_head hc cs) s.data h false,
    searchPat_allws (fun c cs hc => matchEmail_ws_head hc cs) s.data h false]
  rfl

/-! ## Rule-engine lemmas: the keyword scan counts exactly the majors -/

theorem isMajor_weakElig (s : ℚ) :
    isMajor ("Weak strategic eligibility score (" ++ fmtScore s ++ "/6).") = true := by
  simp only [isMajor, majorKeywords, List.any_cons, List.any_nil, Bool.or_eq_true]
  refine Or.inr (Or.inr (Or.inr (Or.inl ?_)))
  rw [String.data_append, String.data_append]
  simp only [lowerL, List.map_append]
  apply hasSub_append_left
  apply hasSub_append_left
  decide

/-- `major_count` equals the spec-side count: one per unfavorable signal,
plus one for a sub-3.0 score; the missing-grade and soft-differentiation
constraints never count. -/
theorem major_count_eq (p : DealInput) : assess_major_count p = specMajorCount p := by
  unfold assess_major_count assess_constraints specMajorCount
  simp only [List.countP_append]
  have h1 : List.countP isMajor
      (if grade_ok p = true then []
       else ["No rating grade provided; cannot anchor risk positioning."]) = 0 := by
    cases hgp : grade_ok p <;> simp [hgp] <;> decide
  have h2 : List.countP isMajor
      (if 4.5 ≤ p.eligibility.score then []
       else if 3 ≤ p.eligibility.score then
         ["Eligibility is not strongly differentiated vs. strategic mandate."]
       else ["Weak strategic eligibility score (" ++ fmtScore p.eligibility.score ++ "/6)."]) =
      if p.eligibility.score < 3 then 1 else 0 := by
    by_cases h45 : (4.5 : ℚ) ≤ p.eligibility.score
    · rw [if_pos h45, if_neg (by intro hc; linarith)]
      rfl
    · rw [if_neg h45]
      by_cases h3 : (3 : ℚ) ≤ p.eligibility.score
      · rw [if_pos h3, if_neg (not_lt.mpr h3)]
        decide
      · rw [if_neg h3, if_pos (lt_of_not_le h3)]
        simp [List.countP_cons, isMajor_weakElig]
  have hsig : ∀ (c : Prop) [Decidable c] (x : String), isMajor x = true →
      List.countP isMajor (if c then [x] else []) = if c then 1 else 0 := by
    intro c _ x hx
    split <;> simp [List.countP_cons, hx]
  rw [h1, h2,
    hsig _ "Revenue trend declining over 3 years." (by decide),
    hsig _ "Margins under pressure; risk to debt service capacity." (by decide),
    hsig _ "Elevated leverage position; reduced headroom." (by decide),
    hsig _ "Weak cash flow quality; potential working-capital stress." (by decide),
    hsig _ "High earnings volatility; needs stronger controls/monitoring." (by decide),
    hsig _ "High capex/growth investment increases execution risk." (by decide),
    hsig _ "Weak financial transparency limits credit comfort." (by decide)]
  omega

theorem classify_rank_mono {a b : Nat} (h : a ≤ b) :
    statusRank (classifyStatus a) ≤ statusRank (classifyStatus b) := by
  unfold classifyStatus
  split_ifs <;> simp [statusRank] <;> omega

theorem assess_deal_ok {today : Nat} {p : DealInput} {s : DealSummary}
    (h : assess_deal today p = Except.ok s) : s = assess_summary today p := by
  unfold assess_deal at h
  split at h
  · cases h
  · injection h with h2
    exact h2.symm

/-- The per-section action and constraint contributions pair up one to one. -/
theorem actions_length_eq_constraints (p : DealInput) :
    (assess_rm_actions p).length = (assess_constraints p).length := by
  have hlen : ∀ (c : Prop) (inst : Decidable c) (x : String),
      (if c then [x] else []).length = if c then 1 else 0 := by
    intro c inst x
    split <;> rfl
  unfold assess_rm_actions assess_constraints
  simp only [List.length_append, hlen]
  by_cases hgp : grade_ok p = true <;>
    by_cases h45 : (4.5 : ℚ) ≤ p.eligibility.score <;>
      by_cases h3 : (3 : ℚ) ≤ p.eligibility.score <;>
        simp [hgp, h45, h3]

/-- `_assess_deal` returns the summary when the guardrail passes. -/
theorem assess_deal_ok_of_clean {today : Nat} {p : DealInput}
    (h : (contains_sensitive p.client_name || contains_sensitive (p.group_name.getD "") ||
      contains_sensitive (p.notes.getD "")) = false) :
    assess_deal today p = Except.ok (assess_summary today p) := by
  unfold assess_deal
  rw [h]
  rfl

/-- The status field of the returned summary, in spec-side terms. -/
theorem summary_status (p : DealInput) :
    assess_status p = classifyStatus (specMajorCount p) := by
  unfold assess_status
  rw [major_count_eq]

theorem assess_summary_status (today : Nat) (p : DealInput) :
    (assess_summary today p).deal_readiness.status = assess_status p := by
  dsimp only [assess_summary]

theorem assess_summary_constraints (today : Nat) (p : DealInput) :
    (assess_summary today p).deal_readiness.constraints = assess_constraints p := by
  dsimp only [assess_summary]

theorem assess_summary_rm_actions (today : Nat) (p : DealInput) :
    (assess_summary today p).rm_actions = assess_rm_actions p := by
  dsimp only [assess_summary]

theorem assess_summary_talking_points (today : Nat) (p : DealInput) :
    (assess_summary today p).talking_points = assess_talking_points p := by
  dsimp only [assess_summary]

theorem assess_summary_created_at (today : Nat) (p : DealInput) :
    (assess_summary today p).created_at = some today := by
  dsimp only [assess_summary]

/-! ## Claim theorems -/

/-- C1: for every valid DealInput, the status produced by the readiness
assessment is determined by the number of major constraints — those from an
unfavorable categorical financial signal or a sub-3.0 eligibility score,
not the soft differentiation constraint and not the missing-rating-grade
constraint: zero majors → Strong, one or two → Conditional, three or more →
Weak; in particular, exactly one unfavorable signal
(`leverage_position="Elevated"`, all else favorable) with score 5.0 gives
Conditional. -/
theorem C1_status_determined_by_major_count :
    (∀ (today : Nat) (p : DealInput) (s : DealSummary), ValidInput p →
        assess_deal today p = Except.ok s →
        s.deal_readiness.status =
          (if 3 ≤ specMajorCount p then Status.Weak
           else if 1 ≤ specMajorCount p then Status.Conditional
           else Status.Strong)) ∧
      assess_status exampleOneElevated = Status.Conditional := by
  constructor
  · intro today p s _ h
    have hs := assess_deal_ok h
    subst hs
    rw [assess_summary_status, summary_status]
    rfl
  · have hm : specMajorCount exampleOneElevated = 1 := by decide
    rw [summary_status, hm]
    rfl

/-- Witness for C1 at the one-Elevated example. -/
theorem C1_witness :
    (assess_summary 0 exampleOneElevated).deal_readiness.status =
      (if 3 ≤ specMajorCount exampleOneElevated then Status.Weak
       else if 1 ≤ specMajorCount exampleOneElevated then Status.Conditional
       else Status.Strong) :=
  C1_status_determined_by_major_count.1 0 exampleOneElevated
    (assess_summary 0 exampleOneElevated)
    ⟨by norm_num [exampleOneElevated], by norm_num [exampleOneElevated], by decide⟩
    (assess_deal_ok_of_clean (by decide))

/-- C2: holding the financial signals and all other fields fixed, the status
is monotone in the eligibility score — a higher score never yields a worse
status (along Strong > Conditional > Weak). -/
theorem C2_status_monotone_in_score :
    ∀ (today : Nat) (p : DealInput) (x y : ℚ) (sx sy : DealSummary), x ≤ y →
      assess_deal today (setScore p x) = Except.ok sx →
      assess_deal today (setScore p y) = Except.ok sy →
      statusRank sy.deal_readiness.status ≤ statusRank sx.deal_readiness.status := by
  intro today p x y sx sy hxy hx hy
  have hsx := assess_deal_ok hx
  have hsy := assess_deal_ok hy
  subst hsx hsy
  rw [assess_summary_status, assess_summary_status, summary_status, summary_status]
  apply classify_rank_mono
  dsimp only [specMajorCount, setScore]
  have hind : (if y < 3 then 1 else 0) ≤ (if x < 3 then (1 : Nat) else 0) := by
    by_cases hy3 : y < 3
    · rw [if_pos hy3, if_pos (lt_of_le_of_lt hxy hy3)]
    · rw [if_neg hy3]
      exact Nat.zero_le _
  omega

/-- Witness for C2: scores 1 and 5 on the one-Elevated example. -/
theorem C2_witness :
    statusRank ((assess_summary 0 (setScore exampleOneElevated 5)).deal_readiness.status) ≤
      statusRank ((assess_summary 0 (setScore exampleOneElevated 1)).deal_readiness.status) :=
  C2_status_monotone_in_score 0 exampleOneElevated 1 5 _ _ (by norm_num)
    (assess_deal_ok_of_clean (by decide)) (assess_deal_ok_of_clean (by decide))

/-- C3 counterexample: the pure-ASCII text `"a111111111111"` contains a
digit run of length 12 (the token-containment reading of the claim, with no
boundary requirement), yet the scanner returns false — the source patterns
require a `\b` word boundary on each side and `a` is a word character, so
plain containment is not what the scanner decides.  (ASCII input, where the
model coincides with the program: `re.search` finds no match either.) -/
theorem C3_counterexample :
    HasPlainTok DigitTok "a111111111111".data ∧
      contains_sensitive "a111111111111" = false :=
  ⟨⟨['a'], "111111111111".data, [], by decide, by decide, by decide, by decide⟩, by decide⟩

/-- C3 (amended): for ASCII input text — where the embedding of Python's
Unicode-aware `\d`/`\w`/`\b` by their ASCII restrictions is exact — the
scanner returns true exactly when the text contains a word-boundary-
delimited IBAN-like token, digit run of length 12-19, or email-shaped token
(word characters being ASCII letters, digits and underscore, the text's
edges counting as non-word); empty or whitespace-only input never matches;
and the five literal cases of the spec hold. -/
theorem C3_scanner_ascii_tokens :
    (∀ s : String, (∀ c ∈ s.data, c.toNat < 128) →
        (contains_sensitive s = true ↔ SensitiveSpec s)) ∧
      (∀ s : String, (∀ c ∈ s.data, c.isWhitespace = true) → contains_sensitive s = false) ∧
      contains_sensitive "john@example.com" = true ∧
      contains_sensitive "4111111111111111" = true ∧
      contains_sensitive "AE070331234567890123456" = true ∧
      contains_sensitive "Client is doing fine" = false ∧
      contains_sensitive "" = false :=
  ⟨fun s _ => contains_sensitive_iff_spec s, contains_sensitive_ws, by decide, by decide,
    by decide, by decide, by decide⟩

/-- Witness for C3's amended claim: the iff at an ASCII email input. -/
theorem C3_witness :
    contains_sensitive "john@example.com" = true ↔ SensitiveSpec "john@example.com" :=
  C3_scanner_ascii_tokens.1 "john@example.com" (by decide)

/-- C4 counterexample: a request to `/ai/explain` carrying a deal summary
(whatever its notes, email-laden or not) ends in a 500 server error, never
the claimed SensitiveDataDetected rejection — the handler crashes at
`payload.deal_summary.notes` (main.py line 283, dict-typed payload) even
with the external client configured; and `/ai/qa` with a client configured
and a summary supplied likewise crashes at `deal.notes` (line 360) before
its notes guard can run. -/
theorem C4_counterexample :
    ai_explain true ⟨true⟩ = ExplainOutcome.serverError ∧
      ai_explain true ⟨true⟩ ≠ ExplainOutcome.rejected ∧
      ai_qa true "What should we prioritise?" (some ⟨true⟩) = QaOutcome.serverError ∧
      ai_qa true "What should we prioritise?" (some ⟨true⟩) ≠ QaOutcome.rejected :=
  ⟨rfl, by decide, by decide, by decide⟩

/-- C4 (amended): an email address in `notes` posted to `/assess` is
rejected with a SensitiveDataDetected-class 400 and never reaches any
adapter.  `/ai/explain` as shipped never issues that rejection: every
request fails with a 500 (AttributeError on the dict-typed `deal_summary`)
before the guard, for any client configuration.  `/ai/qa` rejects an email
in the question for any configuration, but an email inside
`deal_summary.notes` is never rejected: supplying any truthy summary makes
the request fail with a 500 (configured: at `deal.notes` before the guard;
unconfigured: at `deal.model_dump()` inside the fallback), while with no
(or an empty) summary the unconfigured path answers via the deterministic
fallback and the configured path reaches the adapter carrying no notes — so
no request ever reaches the adapter with sensitive notes. -/
theorem C4_email_rejection_amended :
    (∀ (today : Nat) (p : DealInput) (n : String), p.notes = some n →
        contains_email n = true → assess_deal today p = Except.error ()) ∧
      (∀ (cfg : Bool) (raw : RawDealSummary), ai_explain cfg raw = ExplainOutcome.serverError) ∧
      (∀ (cfg : Bool) (q : String) (b : Option RawDealSummary),
        contains_email q = true → ai_qa cfg q b = QaOutcome.rejected) ∧
      (∀ (cfg : Bool) (q : String) (b : Option RawDealSummary),
        contains_sensitive q = false → rawTruthy b = true →
        ai_qa cfg q b = QaOutcome.serverError) ∧
      (∀ (q : String) (b : Option RawDealSummary),
        contains_sensitive q = false → rawTruthy b = false →
        ai_qa false q b = QaOutcome.answered (fallback_ai_qa q none)) ∧
      (∀ (q : String) (b : Option RawDealSummary),
        contains_sensitive q = false → rawTruthy b = false →
        ai_qa true q b = QaOutcome.adapterCall) := by
  refine ⟨?_, ?_, ?_, ?_, ?_, ?_⟩
  · intro today p n hn he
    have hs : contains_sensitive (p.notes.getD "") = true := by
      rw [hn]
      exact contains_email_imp n he
    unfold assess_deal
    rw [if_pos (by simp [hs])]
  · intro cfg raw
    rfl
  · intro cfg q b he
    unfold ai_qa
    rw [if_pos (by simp [contains_email_imp q he])]
  · intro cfg q b hq hb
    cases cfg <;> simp [ai_qa, hq, hb]
  · intro q b hq hb
    simp [ai_qa, hq, hb]
  · intro q b hq hb
    simp [ai_qa, hq, hb]

/-- Witness for C4's amended claim at `/assess` with an email in notes. -/
theorem C4_witness : assess_deal 0 emailNotesInput = Except.error () :=
  C4_email_rejection_amended.1 0 emailNotesInput "Reach me at john@example.com" rfl
    (by decide)

/-- C5 counterexample: the shipped endpoint, called unconfigured (the very
situation in which the claim says it "falls back"), returns a 500 server
error, not a fallback response; and the fallback block itself, run on a
summary with no constraints, yields an empty `key_risks_explained` (not the
claimed placeholder) and takes `rm_talking_points` from `talking_points`,
not from `rm_actions`. -/
theorem C5_counterexample :
    ai_explain false ⟨true⟩ = ExplainOutcome.serverError ∧
      ai_explain false ⟨true⟩ ≠
        ExplainOutcome.fallback (ai_explain_fallback explainExampleSummary) ∧
      (ai_explain_fallback explainExampleSummary).key_risks_explained = [] ∧
      (ai_explain_fallback explainExampleSummary).key_risks_explained ≠
        ["no major constraints flagged"] ∧
      (ai_explain_fallback explainExampleSummary).rm_talking_points = [tpStrong] ∧
      explainExampleSummary.rm_actions =
        ["Obtain/confirm latest internal/external rating grade and date."] ∧
      (ai_explain_fallback explainExampleSummary).rm_talking_points ≠
        explainExampleSummary.rm_actions :=
  ⟨rfl, fun h => ExplainOutcome.noConfusion h, rfl, by decide, rfl, rfl, by decide⟩

/-- C5 (amended): as shipped, `/ai/explain` never reaches its deterministic
fallback — every request ends in a 500 server error at the dict attribute
access `payload.deal_summary.notes` (main.py line 283), before the
`if not oa_client` test.  The fallback response-construction block the
handler repeats at its three fallback sites builds, from a summary of the
typed shape its `get` accesses assume: executive_summary =
`mandate_fit_summary`; key_risks_explained = the first six constraints,
with NO placeholder when the list is empty; rm_talking_points = the first
six `talking_points` (not `rm_actions`); and the fixed disclaimer. -/
theorem C5_explain_fallback_fields :
    (∀ (cfg : Bool) (raw : RawDealSummary), ai_explain cfg raw = ExplainOutcome.serverError) ∧
      ∀ d : DealSummary, ai_explain_fallback d =
        { executive_summary := d.mandate_fit_summary
          key_risks_explained := d.deal_readiness.constraints.take 6
          rm_talking_points := d.talking_points.take 6
          disclaimer := ai_disclaimer } :=
  ⟨fun _ _ => rfl, fun _ => rfl⟩

/-- C6 counterexample: the fallback answer ignores the question — a
"next step" question on a Strong summary with a constraint is answered with
the fixed structure-discussion sentence, identical to the answer for an
unrelated question, and the constraint text is not rendered. -/
theorem C6_counterexample :
    fallback_ai_qa "What are the next steps?" (some qaStrongSummary) =
        "Proceed to structure discussion: facility sizing, tenor, security, covenants, and pricing calibration." ∧
      fallback_ai_qa "Summarise current state." (some qaStrongSummary) =
        fallback_ai_qa "What are the next steps?" (some qaStrongSummary) ∧
      hasSub "No rating grade".data
        (fallback_ai_qa "What are the next steps?" (some qaStrongSummary)).data = false :=
  ⟨rfl, rfl, by decide⟩

/-- C6 (amended): the deterministic QA fallback is total and never reads the
question: absent summary → fixed instruction; otherwise status Strong → the
fixed structure message, else non-empty constraints → the bulleted
constraints (first five) and actions (first six, or a placeholder) sections,
else a fixed clarification message. -/
theorem C6_fallback_qa_characterisation :
    (∀ (q r : String) (d : Option DealSummary), fallback_ai_qa q d = fallback_ai_qa r d) ∧
      (∀ q : String, fallback_ai_qa q none =
        "Provide a deal assessment first (POST /assess), then ask a question grounded in the summary.") ∧
      ∀ (q : String) (d : DealSummary),
        fallback_ai_qa q (some d) =
          if d.deal_readiness.status = Status.Strong then
            "Proceed to structure discussion: facility sizing, tenor, security, covenants, and pricing calibration."
          else if !d.deal_readiness.constraints.isEmpty then
            "Prioritise the top constraints first:\n- " ++
              String.intercalate "\n- " (d.deal_readiness.constraints.take 5) ++
              "\n\nNext RM actions:\n- " ++
              String.intercalate "\n- "
                (if (d.rm_actions.take 6).isEmpty then
                  ["Request missing information and tighten structure accordingly."]
                else d.rm_actions.take 6)
          else
            "Focus on clarifying rating anchor, eligibility drivers, and the weakest financial signals." :=
  ⟨fun _ _ d => by cases d <;> rfl, fun _ => rfl, fun _ _ => rfl⟩

/-- C7 counterexample: with all signals favorable, the summary's talking
points are a single fixed bullet, not a three-bullet set. -/
theorem C7_counterexample :
    (assess_summary 0 exampleAllFavorable).talking_points = [tpStrong] ∧
      (assess_summary 0 exampleAllFavorable).talking_points.length ≠ 3 := by
  have hst : assess_status exampleAllFavorable = Status.Strong := by
    have hm : specMajorCount exampleAllFavorable = 0 := by decide
    rw [summary_status, hm]
    rfl
  have htp : (assess_summary 0 exampleAllFavorable).talking_points = [tpStrong] := by
    rw [assess_summary_talking_points]
    simp [assess_talking_points, hst]
  exact ⟨htp, by rw [htp]; decide⟩

/-- C7 (amended): the talking points are a fixed single-bullet list selected
solely by the computed status: a facility-structuring bullet for Strong, a
constraint-resolution bullet for Conditional, a deferral bullet for Weak. -/
theorem C7_talking_points_by_status :
    ∀ (today : Nat) (p : DealInput) (s : DealSummary),
      assess_deal today p = Except.ok s →
      s.talking_points =
        (match s.deal_readiness.status with
         | Status.Strong => [tpStrong]
         | Status.Conditional => [tpConditional]
         | Status.Weak => [tpWeak]) := by
  intro today p s h
  have hs := assess_deal_ok h
  subst hs
  rw [assess_summary_talking_points, assess_summary_status]
  unfold assess_talking_points
  cases h2 : assess_status p <;> simp

/-- Witness for C7's amended claim. -/
theorem C7_witness :
    (assess_summary 0 exampleOneElevated).talking_points =
      (match (assess_summary 0 exampleOneElevated).deal_readiness.status with
       | Status.Strong => [tpStrong]
       | Status.Conditional => [tpConditional]
       | Status.Weak => [tpWeak]) :=
  C7_talking_points_by_status 0 exampleOneElevated (assess_summary 0 exampleOneElevated)
    (assess_deal_ok_of_clean (by decide))

/-- C8 counterexample: the summary embeds the call date (`date.today()`), so
two calls with identical input on different dates are not byte-identical. -/
theorem C8_counterexample :
    assess_summary 0 exampleAllFavorable ≠ assess_summary 1 exampleAllFavorable := by
  intro h
  have h2 := congrArg DealSummary.created_at h
  rw [assess_summary_created_at, assess_summary_created_at] at h2
  exact absurd h2 (by decide)

/-- C8 (amended): the assessment is deterministic up to `created_at`: every
field other than `created_at` is a pure function of the input, and
`created_at` is exactly the call date — so two calls on the same date return
identical summaries. -/
theorem C8_deterministic_up_to_created_at :
    (∀ (d1 d2 : Nat) (p : DealInput),
        stripCreated (assess_summary d1 p) = stripCreated (assess_summary d2 p)) ∧
      ∀ (d : Nat) (p : DealInput), (assess_summary d p).created_at = some d :=
  ⟨fun _ _ _ => by dsimp only [stripCreated, assess_summary],
    fun d p => assess_summary_created_at d p⟩

/-- C9: every branch that appends a constraint appends exactly one action,
so the assessment returns as many rm_actions as constraints. -/
theorem C9_actions_match_constraints :
    ∀ (today : Nat) (p : DealInput) (s : DealSummary),
      assess_deal today p = Except.ok s →
      s.rm_actions.length = s.deal_readiness.constraints.length := by
  intro today p s h
  have hs := assess_deal_ok h
  subst hs
  rw [assess_summary_rm_actions, assess_summary_constraints]
  exact actions_length_eq_constraints p

/-- Witness for C9. -/
theorem C9_witness :
    (assess_summary 0 exampleOneElevated).rm_actions.length =
      (assess_summary 0 exampleOneElevated).deal_readiness.constraints.length :=
  C9_actions_match_constraints 0 exampleOneElevated (assess_summary 0 exampleOneElevated)
    (assess_deal_ok_of_clean (by decide))

/-- C10: when a deal summary is supplied, the deterministic QA fallback's
answer does not depend on the question text. -/
theorem C10_fallback_qa_question_independent :
    ∀ (q1 q2 : String) (d : DealSummary),
      fallback_ai_qa q1 (some d) = fallback_ai_qa q2 (some d) :=
  fun _ _ _ => rfl
